import Mathlib

/-!
Verification of the fiber routing core (v1.12.1, `app.go`) against its
specification. Pure functions of `app.go` are embedded directly; the parts
of the repository that are not in the provided source (the registration
routine in `router.go`, the `Ctx` response methods, the method table and
error constants from `utils.go`) are modelled from the specification and
marked as such in their doc comments.
-/

namespace Fiber

/-- Structured error from `app.go` lines 40-43: an HTTP status code and a
human-readable message. -/
structure Error where
  Code : Nat
  Message : String
deriving DecidableEq, Repr

/-- A registered route. `Method`, `Path` and `Name` are the exported fields
read by `Routes()` in `app.go`; `pos` is the registration position used for
sorting. Handler chains and compiled matchers are abstracted away because
the claims about `Routes()` never inspect them. -/
structure Route where
  Method : String
  Path : String
  Name : String
  pos : Nat
deriving DecidableEq, Repr

/-- The application state relevant to registration and enumeration,
from `app.go` lines 46-58: the per-method route stack and the counter of
registered routes (which supplies the next position). -/
structure App where
  stack : List (List Route)
  routes : Nat
deriving Repr

/-- Modelled from the spec: the method table `methodINT` lives in the
repository's `utils.go`, which is not part of the provided source. The
spec fixes a method-indexed stack; the `Routes()` code in `app.go` shows
that index 1 is the HEAD bucket. GET is index 0 and the remaining seven
verbs follow. -/
def methodInt : String → Option Nat
  | "GET" => some 0
  | "HEAD" => some 1
  | "POST" => some 2
  | "PUT" => some 3
  | "DELETE" => some 4
  | "CONNECT" => some 5
  | "OPTIONS" => some 6
  | "TRACE" => some 7
  | "PATCH" => some 8
  | _ => none

/-- Number of method buckets created by `New` (`len(methodINT)`). -/
def methodCount : Nat := 9

/-- A fresh application as built by `New` in `app.go`: one empty bucket per
method and a zero route counter. -/
def newApp : App := ⟨List.replicate methodCount [], 0⟩

/-- Append a route to every bucket whose index satisfies `sel`, keeping the
other buckets unchanged. Helper for `register`. -/
def addToBuckets : Nat → List (List Route) → (Nat → Bool) → Route → List (List Route)
  | _, [], _, _ => []
  | i, b :: bs, sel, r => (if sel i then b ++ [r] else b) :: addToBuckets (i + 1) bs sel r

/-- Modelled from the spec: the registration routine lives in the
repository's `router.go`, which is not part of the provided source. Per the
spec, each registration is assigned the next monotonically increasing
position and appended to its method's bucket; a USE registration matches
every verb and is appended to every bucket; a GET registration also
auto-derives a HEAD route, i.e. the same route (its `Method` still "GET")
is additionally appended to the HEAD bucket (index 1), which is exactly the
shape the suppression test in `Routes()` expects. `name` is the route's
optional identifying string. -/
def register (app : App) (method path name : String) : App :=
  let route : Route := ⟨method, path, name, app.routes⟩
  let sel : Nat → Bool :=
    if method == "USE" then fun _ => true
    else fun i => methodInt method == some i || (method == "GET" && i == 1)
  ⟨addToBuckets 0 app.stack sel route, app.routes + 1⟩

/-- The duplicate test inside `Routes()` (`app.go` lines 392-396): the
accumulated list already holds a USE route with the same name. -/
def isDuplicateUse (acc : List Route) (r : Route) : Bool :=
  acc.any fun x => x.Method == "USE" && x.Name == r.Name

/-- The inner loop of `Routes()` (`app.go` lines 384-403) over one bucket
`m`: skip HEAD-bucket entries whose method is GET, deduplicate USE routes
by name, append everything else. -/
def collectBucket : Nat → List Route → List Route → List Route
  | _, [], acc => acc
  | m, r :: rs, acc =>
    if m == 1 && r.Method == "GET" then collectBucket m rs acc
    else if r.Method == "USE" then
      if isDuplicateUse acc r then collectBucket m rs acc
      else collectBucket m rs (acc ++ [r])
    else collectBucket m rs (acc ++ [r])

/-- The outer loop of `Routes()` over the method buckets, carrying the
bucket index. -/
def collectStacks : Nat → List (List Route) → List Route → List Route
  | _, [], acc => acc
  | m, b :: bs, acc => collectStacks (m + 1) bs (collectBucket m b acc)

/-- The final `sort.Slice` of `Routes()` (`app.go` lines 406-408): sort the
collected routes by ascending `pos`. -/
def sortByPos (l : List Route) : List Route :=
  List.insertionSort (fun a b => a.pos ≤ b.pos) l

/-- `Routes()` from `app.go` lines 381-410. -/
def Routes (app : App) : List Route :=
  sortByPos (collectStacks 0 app.stack [])

/-! ## Dispatch model

The dispatcher (`app.handler` / `next` in `router.go`) is not part of the
provided source; it is modelled from the spec's §4.3 state machine. -/

/-- Modelled from the spec: the dispatcher scans the bucket for the request
method in registration order and selects the first route whose matcher
accepts the path. `accept` abstracts the compiled pattern matcher (the
Path Matcher source is not in the provided files). -/
def dispatchMatch (bucket : List Route) (accept : Route → String → Bool)
    (path : String) : Option Route :=
  bucket.find? fun r => accept r path

/-- Modelled from the spec: the observable action of one handler in a
chain — complete normally, invoke the continuation, or set the error
slot and return. -/
inductive HAct where
  | complete
  | next
  | fail (e : Error)
deriving DecidableEq, Repr

/-- Result of running one matched route's handler chain. -/
inductive ChainRes where
  | done
  | errored (e : Error)
  | exhausted
deriving DecidableEq, Repr

/-- Modelled from the spec (§4.3 step 3): run a handler chain; a handler
that completes ends the chain, one that fails ends it with an error in the
slot, one that calls the continuation advances the cursor; falling off the
end of the chain continues the outer route scan. -/
def runChain : List HAct → ChainRes
  | [] => .exhausted
  | .complete :: _ => .done
  | .fail e :: _ => .errored e
  | .next :: rest => runChain rest

/-- A route as the dispatch model sees it: whether its matcher accepts the
request path, and its handler chain. -/
structure MRoute where
  accepts : Bool
  chain : List HAct
deriving DecidableEq, Repr

/-- Overall outcome of the table scan for one dispatch. -/
inductive DispatchRes where
  | completed
  | errored (e : Error)
  | noMatch
deriving DecidableEq, Repr

/-- Modelled from the spec (§4.3 steps 1-3): scan the table in registration
order; the first accepting route runs its chain; an exhausted chain falls
through to the next matching route; running out of routes is a no-match. -/
def scanRoutes : List MRoute → DispatchRes
  | [] => .noMatch
  | r :: rs =>
    if r.accepts then
      match runChain r.chain with
      | .done => .completed
      | .errored e => .errored e
      | .exhausted => scanRoutes rs
    else scanRoutes rs

/-- Modelled from the spec: the not-found structured error synthesized when
no route matches (`utils.go` error constants are not in the provided
source). -/
def ErrNotFound : Error := ⟨404, "Not Found"⟩

/-- Modelled from the spec (§4.3 step 4): after the scan, if the error slot
is non-empty or no route matched, the configured error handler is invoked
once with the error; otherwise it is not invoked. Returns the final error
slot and the number of error-handler invocations made by this dispatch. -/
def dispatchRun (table : List MRoute) : Option Error × Nat :=
  match scanRoutes table with
  | .completed => (none, 0)
  | .errored e => (some e, 1)
  | .noMatch => (some ErrNotFound, 1)

/-! ## Transport fault classification

Translated from the `fasthttp.Server.ErrorHandler` closure installed by
`init` (`app.go` lines 571-584). The Go code distinguishes faults by
runtime type assertions on library error types; those are modelled as
flags on a fault record. -/

/-- Modelled from the spec: the structured error constants referenced by
`init` live in `utils.go`, which is not in the provided source. Codes are
the standard HTTP statuses the spec names: header-too-large,
request-timeout, body-too-large, generic bad-request. -/
def ErrBadRequest : Error := ⟨400, "Bad Request"⟩

/-- Modelled from the spec: see `ErrBadRequest`. -/
def ErrRequestTimeout : Error := ⟨408, "Request Timeout"⟩

/-- Modelled from the spec: see `ErrBadRequest`. -/
def ErrRequestEntityTooLarge : Error := ⟨413, "Request Entity Too Large"⟩

/-- Modelled from the spec: see `ErrBadRequest`. -/
def ErrRequestHeaderFieldsTooLarge : Error := ⟨431, "Request Header Fields Too Large"⟩

/-- A lower-level transport fault as seen by the classification code:
whether it is a `fasthttp.ErrSmallBuffer`, whether it is a `net.OpError`
and reports a timeout, and its error message string. -/
structure TFault where
  isSmallBuffer : Bool
  isOpError : Bool
  opTimeout : Bool
  msg : String
deriving DecidableEq, Repr

/-- The classification chain of the `ErrorHandler` closure in `init`
(`app.go` lines 573-581): small buffer, then network timeout, then the
body-size-limit message (length checked first, as in the source), then
generic bad request. -/
def classifyFault (f : TFault) : Error :=
  if f.isSmallBuffer then ErrRequestHeaderFieldsTooLarge
  else if f.isOpError && f.opTimeout then ErrRequestTimeout
  else if f.msg.length == 33 && f.msg == "body size exceeds the given limit" then
    ErrRequestEntityTooLarge
  else ErrBadRequest

/-- The rest of the `ErrorHandler` closure (`app.go` lines 582-583): the
classified error is stored in the context's error slot and the configured
error handler is invoked exactly once with it. Returns the error handed
over and the number of error-handler invocations. -/
def transportErrorDispatch (f : TFault) : Error × Nat :=
  (classifyFault f, 1)

/-! ## Default error handler

`defaultErrorHandler` itself is in `app.go` lines 200-207; the `Ctx`
response methods it calls (`Set`, `Status`, `SendString`) are in `ctx.go`,
not in the provided source, and are modelled from the spec's response
builder description. -/

/-- A Go `error` value as the handler sees it: either the structured
`*Error` of this package or any other error carrying only its message. -/
inductive GoError where
  | structured (e : Error)
  | plain (msg : String)
deriving DecidableEq, Repr

/-- `(*Error).Error()` from `app.go` lines 362-365 returns the message;
any other error is represented by its message string. -/
def errString : GoError → String
  | .structured e => e.Message
  | .plain m => m

/-- `StatusInternalServerError` (from `utils.go`, standard HTTP 500). -/
def StatusInternalServerError : Nat := 500

/-- Modelled from the spec: the plain-text content type written by the
default error handler (constant from `utils.go`). -/
def MIMETextPlainCharsetUTF8 : String := "text/plain; charset=utf-8"

/-- The `Content-Type` header name (constant from `utils.go`). -/
def HeaderContentType : String := "Content-Type"

/-- The response builder state of a Context, per the spec's data model:
status code, headers, body. -/
structure Resp where
  status : Nat
  headers : List (String × String)
  body : String
deriving DecidableEq, Repr

/-- Modelled from the spec: `Ctx.Set` writes a response header (from
`ctx.go`, not in the provided source): the key is given the new value,
replacing any previous one. -/
def ctxSet (r : Resp) (k v : String) : Resp :=
  { r with headers := (k, v) :: r.headers.filter fun h => h.1 != k }

/-- Modelled from the spec: `Ctx.Status` sets the response status code
(from `ctx.go`, not in the provided source). -/
def ctxStatus (r : Resp) (code : Nat) : Resp :=
  { r with status := code }

/-- Modelled from the spec: `Ctx.SendString` sets the response body (from
`ctx.go`, not in the provided source). -/
def sendString (r : Resp) (s : String) : Resp :=
  { r with body := s }

/-- Look up a response header by name. -/
def getHeader (r : Resp) (k : String) : Option String :=
  (r.headers.find? fun h => h.1 == k).map fun h => h.2

/-- `defaultErrorHandler` from `app.go` lines 200-207: status 500 unless
the error is a structured `*Error`, whose code wins; plain-text content
type; the error's message as the body. -/
def defaultErrorHandler (r : Resp) (err : GoError) : Resp :=
  let code : Nat :=
    match err with
    | .structured e => e.Code
    | .plain _ => StatusInternalServerError
  sendString (ctxStatus (ctxSet r HeaderContentType MIMETextPlainCharsetUTF8) code)
    (errString err)

/-! ## Use argument validation

`Use` is in `app.go` lines 273-288. Its `...interface{}` arguments are
modelled as a sum of the runtime types the loop distinguishes. -/

/-- One argument to `Use`: a string (the route path), a handler, or a
value of any other runtime type. -/
inductive UseArg where
  | str (s : String)
  | handler
  | other (typeName : String)
deriving DecidableEq, Repr

/-- The argument loop of `Use` (`app.go` lines 277-286): a string becomes
the path (last one wins), a handler is appended (modelled by a count), any
other type hits `log.Fatalf`, modelled as `none` (the process aborts before
serving, so no registration takes place). -/
def useArgsScan : List UseArg → String → Nat → Option (String × Nat)
  | [], path, hs => some (path, hs)
  | .str s :: rest, _, hs => useArgsScan rest s hs
  | .handler :: rest, path, hs => useArgsScan rest path (hs + 1)
  | .other _ :: _, _, _ => none

/-- `Use` from `app.go` lines 273-288: scan the arguments, then register a
USE route; a malformed argument aborts (`none`) and registers nothing. -/
def Use (app : App) (args : List UseArg) : Option App :=
  (useArgsScan args "" 0).map fun pr => register app "USE" pr.1 ""

/-! ## Helper lemmas -/

instance : IsTotal Route fun a b => a.pos ≤ b.pos :=
  ⟨fun a b => Nat.le_total a.pos b.pos⟩

instance : IsTrans Route fun a b => a.pos ≤ b.pos :=
  ⟨fun _ _ _ h1 h2 => Nat.le_trans h1 h2⟩

/-- `find?` returns an accepting element no later than any given accepting
index. -/
lemma find_first_accept (accept : Route → String → Bool) (p : String) :
    ∀ (l : List Route) (i : Nat) (hi : i < l.length),
      accept (l.get ⟨i, hi⟩) p = true →
      ∃ k, ∃ hk : k < l.length, k ≤ i ∧
        dispatchMatch l accept p = some (l.get ⟨k, hk⟩) ∧
        accept (l.get ⟨k, hk⟩) p = true := by
  intro l
  induction l with
  | nil => intro i hi; exact absurd hi (Nat.not_lt_zero i)
  | cons x xs ih =>
    intro i hi h
    by_cases hx : accept x p = true
    · refine ⟨0, Nat.succ_pos xs.length, Nat.zero_le i, ?_, hx⟩
      exact List.find?_cons_of_pos xs hx
    · cases i with
      | zero => exact absurd h hx
      | succ i2 =>
        obtain ⟨k, hk, hki, hfind, hacc⟩ :=
          ih i2 (Nat.lt_of_succ_lt_succ hi) h
        refine ⟨k + 1, Nat.succ_lt_succ hk, Nat.succ_le_succ hki, ?_, hacc⟩
        show (x :: xs).find? (fun r => accept r p) = _
        rw [List.find?_cons_of_neg xs hx]
        exact hfind

/-- Everything `collectBucket` emits came from the accumulator or the
bucket. -/
lemma mem_collectBucket :
    ∀ (m : Nat) (b acc : List Route) (x : Route),
      x ∈ collectBucket m b acc → x ∈ acc ∨ x ∈ b := by
  intro m b
  induction b with
  | nil => intro acc x hx; exact Or.inl hx
  | cons r rs ih =>
    intro acc x hx
    have step : ∀ acc2 : List Route, x ∈ collectBucket m rs acc2 →
        (x ∈ acc2 → x ∈ acc ∨ x ∈ r :: rs) → x ∈ acc ∨ x ∈ r :: rs := by
      intro acc2 h2 habs
      rcases ih acc2 x h2 with h3 | h3
      · exact habs h3
      · exact Or.inr (List.mem_cons_of_mem r h3)
    have happ : ∀ y : Route, y ∈ acc ++ [r] → y ∈ acc ∨ y ∈ r :: rs := by
      intro y hy
      rcases List.mem_append.mp hy with h3 | h3
      · exact Or.inl h3
      · exact Or.inr (List.mem_singleton.mp h3 ▸ List.mem_cons_self r rs)
    unfold collectBucket at hx
    split at hx
    · exact step acc hx fun h3 => Or.inl h3
    · split at hx
      · split at hx
        · exact step acc hx fun h3 => Or.inl h3
        · exact step (acc ++ [r]) hx (happ x)
      · exact step (acc ++ [r]) hx (happ x)

/-- Everything `collectStacks` emits came from the accumulator or from one
of the buckets. -/
lemma mem_collectStacks :
    ∀ (bs : List (List Route)) (m : Nat) (acc : List Route) (x : Route),
      x ∈ collectStacks m bs acc → x ∈ acc ∨ ∃ b ∈ bs, x ∈ b := by
  intro bs
  induction bs with
  | nil => intro m acc x hx; exact Or.inl hx
  | cons b rest ih =>
    intro m acc x hx
    rcases ih (m + 1) (collectBucket m b acc) x hx with h2 | h2
    · rcases mem_collectBucket m b acc x h2 with h3 | h3
      · exact Or.inl h3
      · exact Or.inr ⟨b, List.mem_cons_self b rest, h3⟩
    · obtain ⟨b2, hb2, hxb2⟩ := h2
      exact Or.inr ⟨b2, List.mem_cons_of_mem b hb2, hxb2⟩

/-- One unfolding step of the bucket loop. -/
lemma collectStacks_cons (m : Nat) (b : List Route) (bs : List (List Route))
    (acc : List Route) :
    collectStacks m (b :: bs) acc = collectStacks (m + 1) bs (collectBucket m b acc) := rfl

/-- Scanning replicated buckets that each leave the accumulator unchanged
leaves it unchanged. -/
lemma collectStacks_fixed (b : List Route) :
    ∀ (k m : Nat) (acc : List Route), (∀ m2, collectBucket m2 b acc = acc) →
      collectStacks m (List.replicate k b) acc = acc := by
  intro k
  induction k with
  | zero => intro m acc _; rfl
  | succ k2 ih =>
    intro m acc h
    rw [List.replicate_succ, collectStacks_cons, h m]
    exact ih (m + 1) acc h

/-- The argument scan of `Use` aborts exactly when some argument has an
unrecognized runtime type. -/
lemma useArgsScan_none_iff :
    ∀ (args : List UseArg) (path : String) (hs : Nat),
      useArgsScan args path hs = none ↔ ∃ t, UseArg.other t ∈ args := by
  intro args
  induction args with
  | nil =>
    intro path hs
    simp [useArgsScan]
  | cons a rest ih =>
    intro path hs
    cases a with
    | str s => simp [useArgsScan, ih s hs]
    | handler => simp [useArgsScan, ih path (hs + 1)]
    | other t => simp [useArgsScan]

/-! ## Claim theorems -/

/-- C1: for two routes on the same method bucket where R1 (index `i`) was
registered earlier than R2 (index `j`) and both match the path, dispatch
selects the first matching route, whose index is at most `i` and in
particular strictly before `j`: match priority is registration order and a
later-registered pattern never overrides an earlier matching one. -/
theorem dispatch_first_match_priority (bucket : List Route)
    (accept : Route → String → Bool) (p : String) (i j : Nat)
    (hi : i < bucket.length) (hj : j < bucket.length) (hij : i < j)
    (h1 : accept (bucket.get ⟨i, hi⟩) p = true)
    (h2 : accept (bucket.get ⟨j, hj⟩) p = true) :
    ∃ k, ∃ hk : k < bucket.length, k ≤ i ∧ k < j ∧
      dispatchMatch bucket accept p = some (bucket.get ⟨k, hk⟩) := by
  obtain ⟨k, hk, hki, hfind, _⟩ := find_first_accept accept p bucket i hi h1
  exact ⟨k, hk, hki, Nat.lt_of_le_of_lt hki hij, hfind⟩

/-- Witness for C1 at a concrete two-route bucket where both routes match
the request path. -/
theorem dispatch_first_match_priority_witness :
    ∃ k, ∃ hk : k < ([⟨"GET", "/a", "", 0⟩, ⟨"GET", "/:x", "", 1⟩] : List Route).length,
      k ≤ 0 ∧ k < 1 ∧
        dispatchMatch [⟨"GET", "/a", "", 0⟩, ⟨"GET", "/:x", "", 1⟩] (fun _ _ => true) "/a" =
          some (([⟨"GET", "/a", "", 0⟩, ⟨"GET", "/:x", "", 1⟩] : List Route).get ⟨k, hk⟩) :=
  dispatch_first_match_priority [⟨"GET", "/a", "", 0⟩, ⟨"GET", "/:x", "", 1⟩]
    (fun _ _ => true) "/a" 0 1 (by decide) (by decide) (by decide) rfl rfl

/-- C2: `Routes()` returns its result sorted in ascending order of the
`pos` field, and every returned route is one that sits in some per-method
bucket of the stack — enumeration order is position (registration) order
regardless of bucketing. -/
theorem routes_sorted_by_position (app : App) :
    List.Sorted (fun a b => a.pos ≤ b.pos) (Routes app) ∧
    ∀ r ∈ Routes app, ∃ b ∈ app.stack, r ∈ b := by
  constructor
  · exact List.sorted_insertionSort _ _
  · intro r hr
    have hperm :=
      List.perm_insertionSort (fun a b : Route => a.pos ≤ b.pos)
        (collectStacks 0 app.stack [])
    have hmem : r ∈ collectStacks 0 app.stack [] := hperm.mem_iff.mp hr
    rcases mem_collectStacks app.stack 0 [] r hmem with h | h
    · exact absurd h (List.not_mem_nil r)
    · exact h

/-- Witness for C2 at a concrete single registration. -/
theorem routes_sorted_by_position_witness :
    ∃ b ∈ (register newApp "GET" "/w" "").stack, (⟨"GET", "/w", "", 0⟩ : Route) ∈ b :=
  (routes_sorted_by_position (register newApp "GET" "/w" "")).2
    ⟨"GET", "/w", "", 0⟩ (by decide)

/-- C3: two USE registrations with the same name yield exactly one entry in
`Routes()` — the first-registered one — while USE registrations with
distinct names are both returned. -/
theorem use_same_name_dedup (p1 p2 n1 n2 : String) :
    (n1 = n2 →
      Routes (register (register newApp "USE" p1 n1) "USE" p2 n2) =
        [⟨"USE", p1, n1, 0⟩]) ∧
    (n1 ≠ n2 →
      Routes (register (register newApp "USE" p1 n1) "USE" p2 n2) =
        [⟨"USE", p1, n1, 0⟩, ⟨"USE", p2, n2, 1⟩]) := by
  constructor
  · intro h
    subst h
    have hstack : (register (register newApp "USE" p1 n1) "USE" p2 n1).stack =
        List.replicate 9 [⟨"USE", p1, n1, 0⟩, ⟨"USE", p2, n1, 1⟩] := rfl
    have hb0 : collectBucket 0 [⟨"USE", p1, n1, 0⟩, ⟨"USE", p2, n1, 1⟩] [] =
        [⟨"USE", p1, n1, 0⟩] := by
      simp [collectBucket, isDuplicateUse]
    have hbm : ∀ m, collectBucket m [⟨"USE", p1, n1, 0⟩, ⟨"USE", p2, n1, 1⟩]
        [⟨"USE", p1, n1, 0⟩] = [⟨"USE", p1, n1, 0⟩] := by
      intro m
      simp [collectBucket, isDuplicateUse]
    show sortByPos (collectStacks 0 _ []) = _
    rw [hstack, show (9 : Nat) = 8 + 1 from rfl, List.replicate_succ,
      collectStacks_cons, hb0, collectStacks_fixed _ 8 1 _ hbm]
    rfl
  · intro h
    have hne : (n1 == n2) = false := beq_eq_false_iff_ne.mpr h
    have hstack : (register (register newApp "USE" p1 n1) "USE" p2 n2).stack =
        List.replicate 9 [⟨"USE", p1, n1, 0⟩, ⟨"USE", p2, n2, 1⟩] := rfl
    have hb0 : collectBucket 0 [⟨"USE", p1, n1, 0⟩, ⟨"USE", p2, n2, 1⟩] [] =
        [⟨"USE", p1, n1, 0⟩, ⟨"USE", p2, n2, 1⟩] := by
      simp [collectBucket, isDuplicateUse, hne]
    have hbm : ∀ m, collectBucket m [⟨"USE", p1, n1, 0⟩, ⟨"USE", p2, n2, 1⟩]
        [⟨"USE", p1, n1, 0⟩, ⟨"USE", p2, n2, 1⟩] =
        [⟨"USE", p1, n1, 0⟩, ⟨"USE", p2, n2, 1⟩] := by
      intro m
      simp [collectBucket, isDuplicateUse, hne]
    show sortByPos (collectStacks 0 _ []) = _
    rw [hstack, show (9 : Nat) = 8 + 1 from rfl, List.replicate_succ,
      collectStacks_cons, hb0, collectStacks_fixed _ 8 1 _ hbm]
    rfl

/-- Witness for C3: two USE registrations under the same name collapse to
the first-registered entry. -/
theorem use_same_name_dedup_witness :
    Routes (register (register newApp "USE" "/a" "mw") "USE" "/b" "mw") =
      [⟨"USE", "/a", "mw", 0⟩] :=
  (use_same_name_dedup "/a" "/b" "mw" "mw").1 rfl

/-- C4: a GET registration auto-derives a HEAD-bucket copy which `Routes()`
suppresses, while an explicitly registered HEAD route is still enumerated:
only the GET route and the explicit HEAD route appear. -/
theorem get_derived_head_suppressed (p1 p2 n1 n2 : String) :
    Routes (register (register newApp "GET" p1 n1) "HEAD" p2 n2) =
      [⟨"GET", p1, n1, 0⟩, ⟨"HEAD", p2, n2, 1⟩] := by
  have hstack : (register (register newApp "GET" p1 n1) "HEAD" p2 n2).stack =
      [[⟨"GET", p1, n1, 0⟩], [⟨"GET", p1, n1, 0⟩, ⟨"HEAD", p2, n2, 1⟩],
        [], [], [], [], [], [], []] := rfl
  have hb0 : collectBucket 0 [⟨"GET", p1, n1, 0⟩] [] = [⟨"GET", p1, n1, 0⟩] := rfl
  have hb1 : collectBucket 1 [⟨"GET", p1, n1, 0⟩, ⟨"HEAD", p2, n2, 1⟩]
      [⟨"GET", p1, n1, 0⟩] = [⟨"GET", p1, n1, 0⟩, ⟨"HEAD", p2, n2, 1⟩] := rfl
  have hbe : ∀ m acc, collectBucket m [] acc = acc := fun _ _ => rfl
  show sortByPos (collectStacks 0 _ []) = _
  rw [hstack, collectStacks_cons, hb0, collectStacks_cons, hb1,
    collectStacks_cons, hbe, collectStacks_cons, hbe, collectStacks_cons, hbe,
    collectStacks_cons, hbe, collectStacks_cons, hbe, collectStacks_cons, hbe,
    collectStacks_cons, hbe]
  rfl

/-- C5: per dispatch, the error handler is invoked exactly once when an
error condition is present (a handler-signaled error or a no-match) — the
final error slot is non-empty exactly when the invocation count is one —
and zero times when the chain completes without one; a transport-classified
fault likewise produces exactly one invocation. -/
theorem error_handler_invoked_exactly_once (table : List MRoute) (f : TFault) :
    ((dispatchRun table).1.isSome ↔ (dispatchRun table).2 = 1) ∧
    ((dispatchRun table).1 = none ↔ (dispatchRun table).2 = 0) ∧
    (dispatchRun table).2 ≤ 1 ∧
    (transportErrorDispatch f).2 = 1 := by
  cases h : scanRoutes table <;>
    simp [dispatchRun, h, transportErrorDispatch]

/-- C6: the default error handler sets the status to a structured error's
code, or 500 for any other error; it sets the Content-Type header to plain
text and writes the error's message as the body. -/
theorem default_error_handler_spec (r : Resp) (e : Error) (m : String) (err : GoError) :
    (defaultErrorHandler r (.structured e)).status = e.Code ∧
    (defaultErrorHandler r (.plain m)).status = StatusInternalServerError ∧
    getHeader (defaultErrorHandler r err) HeaderContentType =
      some MIMETextPlainCharsetUTF8 ∧
    (defaultErrorHandler r err).body = errString err := by
  refine ⟨rfl, rfl, ?_, ?_⟩ <;> cases err <;> rfl

/-- C7: every transport fault is classified into exactly one of the four
structured errors — small buffer to header-too-large, network timeout to
request-timeout, the body-size-limit message to body-too-large, anything
else to generic bad-request — and the classified error is what is handed to
the configured error handler. -/
theorem transport_fault_classification (f : TFault) :
    (classifyFault f = ErrRequestHeaderFieldsTooLarge ∨
      classifyFault f = ErrRequestTimeout ∨
      classifyFault f = ErrRequestEntityTooLarge ∨
      classifyFault f = ErrBadRequest) ∧
    (f.isSmallBuffer = true → classifyFault f = ErrRequestHeaderFieldsTooLarge) ∧
    (f.isSmallBuffer = false → (f.isOpError && f.opTimeout) = true →
      classifyFault f = ErrRequestTimeout) ∧
    (f.isSmallBuffer = false → (f.isOpError && f.opTimeout) = false →
      f.msg = "body size exceeds the given limit" →
      classifyFault f = ErrRequestEntityTooLarge) ∧
    (f.isSmallBuffer = false → (f.isOpError && f.opTimeout) = false →
      f.msg ≠ "body size exceeds the given limit" →
      classifyFault f = ErrBadRequest) ∧
    (transportErrorDispatch f).1 = classifyFault f := by
  obtain ⟨sb, oe, ot, msg⟩ := f
  refine ⟨?_, ?_, ?_, ?_, ?_, rfl⟩
  · unfold classifyFault
    split_ifs <;> simp
  · intro h
    simp only at h
    simp [classifyFault, h]
  · intro h1 h2
    simp only at h1 h2
    simp [classifyFault, h1, h2]
  · intro h1 h2 h3
    simp only at h1 h2 h3
    subst h3
    have hlen : (("body size exceeds the given limit").length == 33) = true := rfl
    simp [classifyFault, h1, h2, hlen]
  · intro h1 h2 h3
    simp only at h1 h2
    have hne : (msg == "body size exceeds the given limit") = false :=
      beq_eq_false_iff_ne.mpr h3
    simp [classifyFault, h1, h2, hne]

/-- Witness for C7 at a concrete small-buffer fault. -/
theorem transport_fault_classification_witness :
    classifyFault ⟨true, false, false, ""⟩ = ErrRequestHeaderFieldsTooLarge :=
  (transport_fault_classification ⟨true, false, false, ""⟩).2.1 rfl

/-- C8: a `Use` argument that is neither a string nor a handler is a fatal
configuration error — the process aborts and nothing is registered — while
a call whose arguments are all strings or handlers registers a route. -/
theorem use_invalid_arg_fatal (app : App) (args : List UseArg) :
    ((∃ t, UseArg.other t ∈ args) → Use app args = none) ∧
    ((∀ t, UseArg.other t ∉ args) → ∃ app2, Use app args = some app2) := by
  constructor
  · intro h
    have hnone : useArgsScan args "" 0 = none :=
      (useArgsScan_none_iff args "" 0).mpr h
    simp [Use, hnone]
  · intro h
    cases hscan : useArgsScan args "" 0 with
    | none =>
      obtain ⟨t, ht⟩ := (useArgsScan_none_iff args "" 0).mp hscan
      exact absurd ht (h t)
    | some pr =>
      exact ⟨register app "USE" pr.1 "", by simp [Use, hscan]⟩

/-- Witness for C8 at a concrete malformed argument list. -/
theorem use_invalid_arg_fatal_witness :
    Use newApp [UseArg.other "int"] = none :=
  (use_invalid_arg_fatal newApp [UseArg.other "int"]).1
    ⟨"int", List.mem_singleton.mpr rfl⟩

/-- C10: two USE registrations that both carry the empty name are collapsed
by `Routes()` into the single first-registered entry — the empty name is
treated as a shared name for deduplication. -/
theorem use_unnamed_dedup (p1 p2 : String) :
    Routes (register (register newApp "USE" p1 "") "USE" p2 "") =
      [⟨"USE", p1, "", 0⟩] := by
  have hstack : (register (register newApp "USE" p1 "") "USE" p2 "").stack =
      List.replicate 9 [⟨"USE", p1, "", 0⟩, ⟨"USE", p2, "", 1⟩] := rfl
  have hb0 : collectBucket 0 [⟨"USE", p1, "", 0⟩, ⟨"USE", p2, "", 1⟩] [] =
      [⟨"USE", p1, "", 0⟩] := rfl
  have hbm : ∀ m, collectBucket m [⟨"USE", p1, "", 0⟩, ⟨"USE", p2, "", 1⟩]
      [⟨"USE", p1, "", 0⟩] = [⟨"USE", p1, "", 0⟩] := by
    intro m
    simp [collectBucket, isDuplicateUse]
  show sortByPos (collectStacks 0 _ []) = _
  rw [hstack, show (9 : Nat) = 8 + 1 from rfl, List.replicate_succ,
    collectStacks_cons, hb0, collectStacks_fixed _ 8 1 _ hbm]
  rfl

end Fiber
